import Mathlib

/-!
Verification of the SVAP pipeline orchestration core.

This file is a shallow embedding of the orchestration engine of the SVAP
repository: the stage log state machine, the human-gate pause/resume
protocol over task tokens, the content-hash (delta) skip mechanism, the
bounded-concurrency dispatcher, and the versioned schema migrator, all
translated from `src/backend/src/svap/` (storage.py, delta.py, parallel.py,
orchestrator.py, stage_runner.py, stages/stage3_scoring.py).

The persistent store is modelled as explicit state: the `stage_log` table
becomes a list of records in insertion (id) order, SQL UPDATE/INSERT
statements become list transformations, and `ORDER BY id DESC LIMIT 1`
becomes `List.getLast?` of the filtered rows.
-/

namespace SVAP

/-! ## SHA-256 (model of Python hashlib.sha256, used by delta.py)

Words are `Nat` reduced mod 2^32 wherever overflow matters. -/

/-- UTF-8 encoding of one character as byte values (Python `str.encode()`). -/
def charBytes (c : Char) : List Nat :=
  let n := c.toNat
  if n < 128 then [n]
  else if n < 2048 then [192 + n / 64, 128 + n % 64]
  else if n < 65536 then [224 + n / 4096, 128 + n / 64 % 64, 128 + n % 64]
  else [240 + n / 262144, 128 + n / 4096 % 64, 128 + n / 64 % 64, 128 + n % 64]

/-- UTF-8 bytes of a string. -/
def utf8Bytes (s : String) : List Nat :=
  s.data.foldr (fun c acc => charBytes c ++ acc) []

def wordMask : Nat := 4294967295

/-- Right rotation of a 32-bit word. -/
def rotr32 (x k : Nat) : Nat := ((x >>> k) ||| (x <<< (32 - k))) &&& wordMask

/-- The 64 SHA-256 round constants. -/
def sha256K : List Nat :=
  [1116352408, 1899447441, 3049323471, 3921009573, 961987163, 1508970993, 2453635748, 2870763221,
   3624381080, 310598401, 607225278, 1426881987, 1925078388, 2162078206, 2614888103, 3248222580,
   3835390401, 4022224774, 264347078, 604807628, 770255983, 1249150122, 1555081692, 1996064986,
   2554220882, 2821834349, 2952996808, 3210313671, 3336571891, 3584528711, 113926993, 338241895,
   666307205, 773529912, 1294757372, 1396182291, 1695183700, 1986661051, 2177026350, 2456956037,
   2730485921, 2820302411, 3259730800, 3345764771, 3516065817, 3600352804, 4094571909, 275423344,
   430227734, 506948616, 659060556, 883997877, 958139571, 1322822218, 1537002063, 1747873779,
   1955562222, 2024104815, 2227730452, 2361852424, 2428436474, 2756734187, 3204031479, 3329325298]

/-- The 8 initial SHA-256 hash values. -/
def sha256H0 : List Nat :=
  [1779033703, 3144134277, 1013904242, 2773480762, 1359893119, 2600822924, 528734635, 1541459225]

/-- SHA-256 message padding: 0x80, zeros to 56 mod 64, 8-byte big-endian bit length. -/
def padBytes (msg : List Nat) : List Nat :=
  let l := msg.length
  msg ++ 128 :: (List.replicate ((119 - l % 64) % 64) 0
      ++ (List.range 8).map (fun i => (8 * l >>> (56 - 8 * i)) &&& 255))

/-- The 16 big-endian 32-bit words of the 64-byte block starting at offset `b`. -/
def blockWords (msg : List Nat) (b : Nat) : List Nat :=
  (List.range 16).map (fun t =>
    ((msg.getD (b + 4 * t) 0) <<< 24) ||| ((msg.getD (b + 4 * t + 1) 0) <<< 16) |||
    ((msg.getD (b + 4 * t + 2) 0) <<< 8) ||| msg.getD (b + 4 * t + 3) 0)

def smallSigma0 (x : Nat) : Nat := rotr32 x 7 ^^^ rotr32 x 18 ^^^ (x >>> 3)

def smallSigma1 (x : Nat) : Nat := rotr32 x 17 ^^^ rotr32 x 19 ^^^ (x >>> 10)

/-- Extend the 16 block words to the 64-entry message schedule. -/
def schedule (ws : List Nat) : List Nat :=
  (List.range 48).foldl (fun w _ =>
    let t := w.length
    w ++ [(w.getD (t - 16) 0 + smallSigma0 (w.getD (t - 15) 0) + w.getD (t - 7) 0 +
           smallSigma1 (w.getD (t - 2) 0)) % 4294967296]) ws

/-- The eight working variables of the compression loop. -/
structure Sha256State where
  a : Nat
  b : Nat
  c : Nat
  d : Nat
  e : Nat
  f : Nat
  g : Nat
  h : Nat
deriving DecidableEq

/-- One round of the SHA-256 compression function. -/
def sha256Round (w : List Nat) (st : Sha256State) (t : Nat) : Sha256State :=
  let S1 := rotr32 st.e 6 ^^^ rotr32 st.e 11 ^^^ rotr32 st.e 25
  let ch := (st.e &&& st.f) ^^^ ((st.e ^^^ wordMask) &&& st.g)
  let t1 := (st.h + S1 + ch + sha256K.getD t 0 + w.getD t 0) % 4294967296
  let S0 := rotr32 st.a 2 ^^^ rotr32 st.a 13 ^^^ rotr32 st.a 22
  let maj := (st.a &&& st.b) ^^^ (st.a &&& st.c) ^^^ (st.b &&& st.c)
  let t2 := (S0 + maj) % 4294967296
  ⟨(t1 + t2) % 4294967296, st.a, st.b, st.c, (st.d + t1) % 4294967296, st.e, st.f, st.g⟩

/-- Compress one 64-byte block into the running hash values. -/
def processBlock (hs : List Nat) (msg : List Nat) (b : Nat) : List Nat :=
  let w := schedule (blockWords msg b)
  let init : Sha256State := ⟨hs.getD 0 0, hs.getD 1 0, hs.getD 2 0, hs.getD 3 0,
    hs.getD 4 0, hs.getD 5 0, hs.getD 6 0, hs.getD 7 0⟩
  let fin := (List.range 64).foldl (sha256Round w) init
  [(hs.getD 0 0 + fin.a) % 4294967296, (hs.getD 1 0 + fin.b) % 4294967296,
   (hs.getD 2 0 + fin.c) % 4294967296, (hs.getD 3 0 + fin.d) % 4294967296,
   (hs.getD 4 0 + fin.e) % 4294967296, (hs.getD 5 0 + fin.f) % 4294967296,
   (hs.getD 6 0 + fin.g) % 4294967296, (hs.getD 7 0 + fin.h) % 4294967296]

def hexChar (n : Nat) : Char := if n < 10 then Char.ofNat (48 + n) else Char.ofNat (87 + n)

/-- Lower-case hex rendering of a 32-bit word, 8 digits. -/
def wordToHex (n : Nat) : String :=
  String.mk ((List.range 8).map (fun i => hexChar ((n >>> (28 - 4 * i)) &&& 15)))

/-- `hashlib.sha256(s.encode()).hexdigest()`. -/
def sha256hex (s : String) : String :=
  let msg := padBytes (utf8Bytes s)
  let hs := (List.range (msg.length / 64)).foldl
    (fun hs b => processBlock hs msg (64 * b)) sha256H0
  String.join (hs.map wordToHex)

set_option maxRecDepth 100000

/-- Known-answer test for the SHA-256 model (FIPS 180 vector for "abc"). -/
theorem sha256hex_abc :
    sha256hex "abc" = "ba7816bf8f01cfea414140de5dae2223b00361a396177a9cb410ff61f20015ad" := by
  decide

/-- Known-answer test for the SHA-256 model (empty message). -/
theorem sha256hex_empty :
    sha256hex "" = "e3b0c44298fc1c149afbf4c8996fb92427ae41e4649b934ca495991b7852b855" := by
  decide

/-! ## delta.py -/

/-- `delta.compute_hash(*parts)`: 12-char hex hash of the parts joined by a pipe. -/
def compute_hash (parts : List String) : String :=
  (sha256hex (String.intercalate "|" parts)).take 12

/-- Code-point lexicographic comparison of character lists: the order Python
string comparison uses (a proper prefix is smaller). -/
def listLe : List Char → List Char → Bool
  | [], _ => true
  | _ :: _, [] => false
  | a :: as, b :: bs =>
    if a.toNat < b.toNat then true
    else if b.toNat < a.toNat then false
    else listLe as bs

/-- Python string `<=`, as a proposition on Lean strings. -/
def pyLe (a b : String) : Prop := listLe a.data b.data = true

instance : DecidableRel pyLe := fun a b => by
  unfold pyLe
  infer_instance

theorem listLe_total : ∀ as bs : List Char, listLe as bs = true ∨ listLe bs as = true := by
  intro as
  induction as with
  | nil => intro bs; left; rfl
  | cons a as ih =>
    intro bs
    cases bs with
    | nil => right; rfl
    | cons b bs =>
      by_cases h1 : a.toNat < b.toNat
      · left
        simp [listLe, h1]
      · by_cases h2 : b.toNat < a.toNat
        · right
          simp [listLe, h2]
        · rcases ih bs with h | h
          · left
            simp [listLe, h1, h2, h]
          · right
            simp [listLe, h1, h2, h]

theorem listLe_trans : ∀ as bs cs : List Char,
    listLe as bs = true → listLe bs cs = true → listLe as cs = true := by
  intro as
  induction as with
  | nil => intro bs cs _ _; rfl
  | cons a as ih =>
    intro bs cs hab hbc
    cases bs with
    | nil => simp [listLe] at hab
    | cons b bs =>
      cases cs with
      | nil => simp [listLe] at hbc
      | cons c cs =>
        rcases Nat.lt_trichotomy a.toNat b.toNat with h1 | h1 | h1 <;>
          rcases Nat.lt_trichotomy b.toNat c.toNat with h2 | h2 | h2
        · simp [listLe, Nat.lt_trans h1 h2]
        · simp [listLe, h2 ▸ h1]
        · simp [listLe, Nat.lt_asymm h2, h2] at hbc
        · simp [listLe, h1 ▸ h2]
        · have h3 : a.toNat = c.toNat := h1.trans h2
          simp [listLe, Nat.lt_irrefl, h1, h2, h3, h1 ▸ h2] at hab hbc ⊢
          exact ih bs cs hab hbc
        · simp [listLe, Nat.lt_asymm h2, h2] at hbc
        · simp [listLe, Nat.lt_asymm h1, h1] at hab
        · simp [listLe, Nat.lt_asymm h1, h1] at hab
        · simp [listLe, Nat.lt_asymm h1, h1] at hab

theorem char_toNat_inj {a b : Char} (h : a.toNat = b.toNat) : a = b := by
  simpa [Char.toNat, Char.ext_iff, UInt32.ext_iff] using h

theorem listLe_antisymm : ∀ as bs : List Char,
    listLe as bs = true → listLe bs as = true → as = bs := by
  intro as
  induction as with
  | nil =>
    intro bs h1 h2
    cases bs with
    | nil => rfl
    | cons b bs => simp [listLe] at h2
  | cons a as ih =>
    intro bs h1 h2
    cases bs with
    | nil => simp [listLe] at h1
    | cons b bs =>
      by_cases hab : a.toNat < b.toNat
      · simp [listLe, hab, Nat.lt_asymm hab] at h2
      · by_cases hba : b.toNat < a.toNat
        · simp [listLe, hab, hba] at h1
        · have heq : a = b :=
            char_toNat_inj (Nat.le_antisymm (Nat.not_lt.mp hba) (Nat.not_lt.mp hab))
          subst heq
          simp [listLe, hab, hba] at h1 h2
          rw [ih bs h1 h2]

instance : IsTotal String pyLe := ⟨fun a b => listLe_total a.data b.data⟩

instance : IsTrans String pyLe := ⟨fun a b c => listLe_trans a.data b.data c.data⟩

instance : IsAntisymm String pyLe :=
  ⟨fun a b h1 h2 => String.ext (listLe_antisymm a.data b.data h1 h2)⟩

/-- A row of the `taxonomy` table (the fields `taxonomy_fingerprint` may see). -/
structure Quality where
  quality_id : String
  name : String
  definition : String
  canonical_examples : String
deriving DecidableEq

/-- The string `":".join(sorted(q["quality_id"] for q in taxonomy))` hashed by
`taxonomy_fingerprint` (Python `sorted` on strings modelled by insertion sort
under `pyLe`, the code-point lexicographic order Python compares strings by). -/
def fingerprint_input (taxonomy : List Quality) : String :=
  String.intercalate ":" (List.insertionSort pyLe (taxonomy.map Quality.quality_id))

/-- `delta.taxonomy_fingerprint(taxonomy)`. -/
def taxonomy_fingerprint (taxonomy : List Quality) : String :=
  (sha256hex (fingerprint_input taxonomy)).take 12

/-! ## storage.py: stage_log and exploitation_trees state

`stage_log` rows in ascending `id` order; the fields the modelled operations
read or write (timestamps are not modelled — no operation branches on them). -/

/-- `stage_log.status` values (CHECK constraint of the v1 schema). -/
inductive Status where
  | running
  | completed
  | failed
  | pending_review
  | approved
deriving DecidableEq

/-- `exploitation_trees.review_status` values (CHECK constraint of the v6 schema). -/
inductive ReviewStatus where
  | draft
  | approved
  | rejected
  | revised
deriving DecidableEq

/-- A `stage_log` row. -/
structure StageRecord where
  run_id : String
  stage : Nat
  status : Status
  error_message : Option String := none
  metadata : Option String := none
  task_token : Option String := none
deriving DecidableEq

/-- An `exploitation_trees` row (the fields `approve_stage` touches). -/
structure TreeRecord where
  tree_id : String
  review_status : ReviewStatus
deriving DecidableEq

/-- The persistent state the modelled storage operations act on. -/
structure StorageState where
  stage_log : List StageRecord
  trees : List TreeRecord
deriving DecidableEq

/-- The `WHERE run_id=… AND stage=…` filter of the stage-log statements. -/
def rowMatches (run_id : String) (stage : Nat) (r : StageRecord) : Bool :=
  r.run_id == run_id && r.stage == stage

/-- `SVAPStorage.log_stage_start`: INSERT a fresh `running` row. -/
def log_stage_start (st : StorageState) (run_id : String) (stage : Nat) : StorageState :=
  { st with stage_log := st.stage_log ++
      [{ run_id := run_id, stage := stage, status := Status.running }] }

/-- `SVAPStorage.log_stage_complete`: UPDATE every `running` row of
(run_id, stage) to `completed`, attaching the metadata. -/
def log_stage_complete (st : StorageState) (run_id : String) (stage : Nat)
    (metadata : Option String) : StorageState :=
  { st with stage_log := st.stage_log.map (fun r =>
      if rowMatches run_id stage r && r.status == Status.running
      then { r with status := Status.completed, metadata := metadata } else r) }

/-- `SVAPStorage.log_stage_failed`: UPDATE every `running` row of
(run_id, stage) to `failed`, recording the error text. -/
def log_stage_failed (st : StorageState) (run_id : String) (stage : Nat)
    (error : String) : StorageState :=
  { st with stage_log := st.stage_log.map (fun r =>
      if rowMatches run_id stage r && r.status == Status.running
      then { r with status := Status.failed, error_message := some error } else r) }

/-- `SVAPStorage.log_stage_pending_review`: UPDATE every `running` row of
(run_id, stage) to `pending_review`. -/
def log_stage_pending_review (st : StorageState) (run_id : String) (stage : Nat) :
    StorageState :=
  { st with stage_log := st.stage_log.map (fun r =>
      if rowMatches run_id stage r && r.status == Status.running
      then { r with status := Status.pending_review } else r) }

/-- The per-row effect of the first UPDATE of `approve_stage`. -/
def approveRow (run_id : String) (stage : Nat) (r : StageRecord) : StageRecord :=
  if rowMatches run_id stage r && r.status == Status.pending_review
  then { r with status := Status.approved } else r

/-- The per-row effect of the stage-5 UPDATE of `approve_stage` on
`exploitation_trees`. -/
def approveTree (t : TreeRecord) : TreeRecord :=
  if t.review_status == ReviewStatus.draft
  then { t with review_status := ReviewStatus.approved } else t

/-- `SVAPStorage.approve_stage`: UPDATE every `pending_review` row of
(run_id, stage) to `approved`; when `stage = 5` additionally UPDATE every
`draft` exploitation tree to `approved` (no run or policy filter). -/
def approve_stage (st : StorageState) (run_id : String) (stage : Nat) : StorageState :=
  { stage_log := st.stage_log.map (approveRow run_id stage),
    trees := if stage == 5 then st.trees.map approveTree else st.trees }

/-- `SVAPStorage.get_stage_status`: status of the row with the greatest id for
(run_id, stage), `None` when there is none. -/
def get_stage_status (st : StorageState) (run_id : String) (stage : Nat) : Option Status :=
  ((st.stage_log.filter (rowMatches run_id stage)).getLast?).map StageRecord.status

/-- Update the last element of the list satisfying `p` (the row whose id is the
`SELECT id … ORDER BY id DESC LIMIT 1` of `store_task_token`). -/
def updateLast (p : α → Bool) (f : α → α) : List α → List α
  | [] => []
  | x :: xs =>
    if xs.any p then x :: updateLast p f xs
    else if p x then f x :: xs else x :: xs

/-- `SVAPStorage.store_task_token`: set `task_token` on the most recent row of
(run_id, stage). -/
def store_task_token (st : StorageState) (run_id : String) (stage : Nat)
    (task_token : String) : StorageState :=
  { st with
    stage_log :=
      updateLast (rowMatches run_id stage)
        (fun r => { r with task_token := some task_token }) st.stage_log }

/-- `SVAPStorage.get_task_token`: the `task_token` of the most recent row of
(run_id, stage) whose token is non-null. -/
def get_task_token (st : StorageState) (run_id : String) (stage : Nat) : Option String :=
  ((st.stage_log.filter (fun r =>
      rowMatches run_id stage r && r.task_token.isSome)).getLast?).bind StageRecord.task_token

/-! ### How each transition changes `get_stage_status` -/

/-- After `log_stage_start` the current status of the started (run, stage)
is `running`. -/
theorem get_stage_status_log_stage_start (st : StorageState) (run_id : String) (stage : Nat) :
    get_stage_status (log_stage_start st run_id stage) run_id stage = some Status.running := by
  simp [get_stage_status, log_stage_start, List.filter_append, rowMatches, List.getLast?_concat]

/-- The status-only effect of an UPDATE that rewrites every matching `src` row:
the current status is mapped by `src ↦ tgt`; any other current status is kept. -/
theorem status_after_update (l : List StageRecord) (run_id : String) (stage : Nat)
    (F : StageRecord → StageRecord) (src tgt : Status)
    (hthen : ∀ r, (rowMatches run_id stage r && r.status == src) = true →
      (F r).run_id = r.run_id ∧ (F r).stage = r.stage ∧ (F r).status = tgt)
    (helse : ∀ r, (rowMatches run_id stage r && r.status == src) = false → F r = r) :
    ((l.map F).filter (rowMatches run_id stage)).getLast?.map StageRecord.status =
      (((l.filter (rowMatches run_id stage)).getLast?).map StageRecord.status).map
        (fun s => if s = src then tgt else s) := by
  have hmatch : ∀ r, rowMatches run_id stage (F r) = rowMatches run_id stage r := by
    intro r
    by_cases hc : (rowMatches run_id stage r && r.status == src) = true
    · obtain ⟨h1, h2, _⟩ := hthen r hc
      simp [rowMatches, h1, h2]
    · rw [helse r (Bool.not_eq_true _ ▸ hc)]
  rw [List.filter_map]
  have hfc : List.filter (rowMatches run_id stage ∘ F) l =
      List.filter (rowMatches run_id stage) l := by
    apply List.filter_congr
    intro r _
    simp only [Function.comp_apply]
    exact hmatch r
  rw [hfc, List.getLast?_map]
  rcases hlast : (l.filter (rowMatches run_id stage)).getLast? with _ | r
  · simp
  · have hr : r ∈ l.filter (rowMatches run_id stage) := List.mem_of_getLast?_eq_some hlast
    have hrm : rowMatches run_id stage r = true := (List.mem_filter.mp hr).2
    by_cases hs : r.status = src
    · obtain ⟨_, _, h3⟩ := hthen r (by simp [hrm, hs])
      simp [h3, hs]
    · have hc : (rowMatches run_id stage r && r.status == src) = false := by
        simp [hs]
      simp [helse r hc, hs]

/-- `log_stage_complete` maps a current `running` status to `completed` and
leaves any other current status unchanged. -/
theorem get_stage_status_log_stage_complete (st : StorageState) (run_id : String)
    (stage : Nat) (metadata : Option String) :
    get_stage_status (log_stage_complete st run_id stage metadata) run_id stage =
      (get_stage_status st run_id stage).map
        (fun s => if s = Status.running then Status.completed else s) := by
  apply status_after_update
  · intro r hc
    simp [hc]
  · intro r hc
    simp [hc]

/-- `log_stage_failed` maps a current `running` status to `failed` and leaves
any other current status unchanged. -/
theorem get_stage_status_log_stage_failed (st : StorageState) (run_id : String)
    (stage : Nat) (error : String) :
    get_stage_status (log_stage_failed st run_id stage error) run_id stage =
      (get_stage_status st run_id stage).map
        (fun s => if s = Status.running then Status.failed else s) := by
  apply status_after_update
  · intro r hc
    simp [hc]
  · intro r hc
    simp [hc]

/-- `log_stage_pending_review` maps a current `running` status to
`pending_review` and leaves any other current status unchanged. -/
theorem get_stage_status_log_stage_pending_review (st : StorageState) (run_id : String)
    (stage : Nat) :
    get_stage_status (log_stage_pending_review st run_id stage) run_id stage =
      (get_stage_status st run_id stage).map
        (fun s => if s = Status.running then Status.pending_review else s) := by
  apply status_after_update
  · intro r hc
    simp [hc]
  · intro r hc
    simp [hc]

/-- `approve_stage` maps a current `pending_review` status to `approved` and
leaves any other current status unchanged. -/
theorem get_stage_status_approve_stage (st : StorageState) (run_id : String) (stage : Nat) :
    get_stage_status (approve_stage st run_id stage) run_id stage =
      (get_stage_status st run_id stage).map
        (fun s => if s = Status.pending_review then Status.approved else s) := by
  apply status_after_update
  · intro r hc
    simp [approveRow, hc]
  · intro r hc
    simp [approveRow, hc]

/-! ## Sequences of stage-log calls (claim C1) -/

/-- The empty store (fresh database). -/
def emptyState : StorageState := { stage_log := [], trees := [] }

/-- One stage-log call for a fixed (run, stage). -/
inductive StageOp where
  | start
  | complete (metadata : Option String)
  | fail (error : String)
  | pending
deriving DecidableEq

/-- The storage operation each call performs. -/
def applyOp (st : StorageState) (run_id : String) (stage : Nat) : StageOp → StorageState
  | StageOp.start => log_stage_start st run_id stage
  | StageOp.complete m => log_stage_complete st run_id stage m
  | StageOp.fail e => log_stage_failed st run_id stage e
  | StageOp.pending => log_stage_pending_review st run_id stage

/-- Apply a sequence of calls in order. -/
def applyOps (st : StorageState) (run_id : String) (stage : Nat) : List StageOp → StorageState
  | [] => st
  | op :: rest => applyOps (applyOp st run_id stage op) run_id stage rest

/-- The status corresponding to each call (running, completed, failed,
pending_review respectively). -/
def opStatus : StageOp → Status
  | StageOp.start => Status.running
  | StageOp.complete _ => Status.completed
  | StageOp.fail _ => Status.failed
  | StageOp.pending => Status.pending_review

/-- Whether every non-start call of the sequence is issued while the current
status of (run, stage) is `running` (the discipline the orchestrator follows:
a terminal transition always follows its own `log_stage_start`). -/
def wellSequenced (st : StorageState) (run_id : String) (stage : Nat) : List StageOp → Bool
  | [] => true
  | op :: rest =>
    (op == StageOp.start || get_stage_status st run_id stage == some Status.running) &&
      wellSequenced (applyOp st run_id stage op) run_id stage rest

/-- A single well-placed call leaves the current status at its target. -/
theorem get_stage_status_applyOp (st : StorageState) (run_id : String) (stage : Nat)
    (op : StageOp)
    (h : op = StageOp.start ∨ get_stage_status st run_id stage = some Status.running) :
    get_stage_status (applyOp st run_id stage op) run_id stage = some (opStatus op) := by
  cases op with
  | start =>
    simp [applyOp, opStatus, get_stage_status_log_stage_start]
  | complete m =>
    rcases h with h | h
    · exact absurd h (by simp)
    · rw [applyOp, get_stage_status_log_stage_complete, h]
      simp [opStatus]
  | fail e =>
    rcases h with h | h
    · exact absurd h (by simp)
    · rw [applyOp, get_stage_status_log_stage_failed, h]
      simp [opStatus]
  | pending =>
    rcases h with h | h
    · exact absurd h (by simp)
    · rw [applyOp, get_stage_status_log_stage_pending_review, h]
      simp [opStatus]

/-- C1, amended: after any nonempty sequence of stage-log calls for (run, stage)
in which every `completeStage`/`failStage`/`markAwaitingApproval` call is issued
while the current status is `running`, `get_stage_status` returns the status of
the last call. (Unconstrained sequences falsify the claim: see the
counterexample.) -/
theorem c1_stage_log_read_latest (st : StorageState) (run_id : String) (stage : Nat)
    (ops : List StageOp) (op : StageOp)
    (hwf : wellSequenced st run_id stage ops = true)
    (hlast : ops.getLast? = some op) :
    get_stage_status (applyOps st run_id stage ops) run_id stage = some (opStatus op) := by
  induction ops generalizing st with
  | nil => simp at hlast
  | cons op0 rest ih =>
    rw [wellSequenced, Bool.and_eq_true] at hwf
    obtain ⟨h0, hrest⟩ := hwf
    have h0' : op0 = StageOp.start ∨
        get_stage_status st run_id stage = some Status.running := by
      rcases Bool.or_eq_true_iff.mp h0 with h | h
      · exact Or.inl (by simpa using h)
      · exact Or.inr (by simpa using h)
    cases rest with
    | nil =>
      have heq : op0 = op := by simpa using hlast
      subst heq
      exact get_stage_status_applyOp st run_id stage op0 h0'
    | cons op1 rest' =>
      rw [List.getLast?_cons_cons] at hlast
      exact ih (applyOp st run_id stage op0) hrest hlast

/-- Witness for `c1_stage_log_read_latest` at a concrete gate sequence. -/
theorem c1_stage_log_read_latest_witness :
    get_stage_status (applyOps emptyState "run1" 2 [StageOp.start, StageOp.pending]) "run1" 2 =
      some (opStatus StageOp.pending) :=
  c1_stage_log_read_latest emptyState "run1" 2 [StageOp.start, StageOp.pending]
    StageOp.pending (by decide) (by decide)

/-- C1 as stated is false: for the sequence startStage; completeStage; failStage
the last call is `failStage` (whose status is `failed`), yet the current status
is `completed` — the failStage UPDATE matched no `running` row. -/
theorem c1_counterexample :
    opStatus (StageOp.fail "boom") = Status.failed ∧
    get_stage_status
        (applyOps emptyState "run1" 1
          [StageOp.start, StageOp.complete none, StageOp.fail "boom"]) "run1" 1 =
      some Status.completed := by
  decide

/-! ## approve_stage algebra (claims C6, C9) -/

/-- Mapping an idempotent function twice is mapping it once. -/
theorem map_idem_of_idem {α : Type} (f : α → α) (hf : ∀ a, f (f a) = f a) (l : List α) :
    (l.map f).map f = l.map f := by
  induction l with
  | nil => rfl
  | cons a l ih => simp [hf a, ih]

/-- Mapping a function that fixes every element of the list is the identity. -/
theorem map_eq_self_of_fix {α : Type} (f : α → α) (l : List α) (h : ∀ a ∈ l, f a = a) :
    l.map f = l := by
  induction l with
  | nil => rfl
  | cons a l ih =>
    rw [List.map_cons, h a (by simp), ih (fun b hb => h b (by simp [hb]))]

/-- The row rewrite of `approve_stage` is idempotent. -/
theorem approveRow_idem (run_id : String) (stage : Nat) (r : StageRecord) :
    approveRow run_id stage (approveRow run_id stage r) = approveRow run_id stage r := by
  unfold approveRow
  by_cases hc : (rowMatches run_id stage r && r.status == Status.pending_review) = true
  · rw [if_pos hc]
    rw [if_neg]
    simp [rowMatches]
  · rw [if_neg hc, if_neg hc]

/-- The tree rewrite of `approve_stage` is idempotent. -/
theorem approveTree_idem (t : TreeRecord) :
    approveTree (approveTree t) = approveTree t := by
  unfold approveTree
  by_cases hc : (t.review_status == ReviewStatus.draft) = true
  · rw [if_pos hc]
    rw [if_neg]
    simp
  · rw [if_neg hc, if_neg hc]

/-- A reachable state with a stale `pending_review` row beneath a `completed`
row: start; markAwaitingApproval; start; complete. -/
def staleGateState : StorageState :=
  log_stage_complete
    (log_stage_start
      (log_stage_pending_review (log_stage_start emptyState "run1" 2) "run1" 2) "run1" 2)
    "run1" 2 none

/-- C6 as stated is false: in `staleGateState` the current status of
("run1", 2) is `completed` — not `pending_review` — yet `approve_stage` still
changes a row (the stale `pending_review` record, which the UPDATE matches
without any recency restriction). -/
theorem c6_counterexample :
    get_stage_status staleGateState "run1" 2 = some Status.completed ∧
    approve_stage staleGateState "run1" 2 ≠ staleGateState := by
  decide

/-- C6, amended: `approve_stage` changes nothing unless some stage_log row of
(run, stage) has status `pending_review` (for stage 5: or some exploitation
tree is a draft); and calling it twice in a row, the second call changes
nothing — in the persistent state, idempotence holds unconditionally. -/
theorem c6_approve_stage_idempotent (st : StorageState) (run_id : String) (stage : Nat) :
    approve_stage (approve_stage st run_id stage) run_id stage =
      approve_stage st run_id stage ∧
    ((∀ r ∈ st.stage_log,
        (rowMatches run_id stage r && r.status == Status.pending_review) = false) →
      (stage = 5 → ∀ t ∈ st.trees, t.review_status ≠ ReviewStatus.draft) →
      approve_stage st run_id stage = st) := by
  constructor
  · unfold approve_stage
    by_cases h5 : (stage == 5) = true
    · simp [h5, map_idem_of_idem _ (approveRow_idem run_id stage),
        map_idem_of_idem _ approveTree_idem]
    · simp [h5, map_idem_of_idem _ (approveRow_idem run_id stage),
        Bool.not_eq_true _ ▸ h5]
  · intro hrow htree
    have h1 : st.stage_log.map (approveRow run_id stage) = st.stage_log := by
      apply map_eq_self_of_fix
      intro r hr
      unfold approveRow
      rw [if_neg]
      simp [hrow r hr]
    by_cases h5 : (stage == 5) = true
    · have ht : st.trees.map approveTree = st.trees := by
        apply map_eq_self_of_fix
        intro t htm
        unfold approveTree
        rw [if_neg]
        simp [htree (by simpa using h5) t htm]
      simp [approve_stage, h5, h1, ht]
    · simp [approve_stage, h5, h1]

/-- Witness for `c6_approve_stage_idempotent` at a concrete state and stage. -/
theorem c6_approve_stage_idempotent_witness :
    approve_stage (approve_stage emptyState "run1" 3) "run1" 3 =
        approve_stage emptyState "run1" 3 ∧
      approve_stage emptyState "run1" 3 = emptyState :=
  ⟨(c6_approve_stage_idempotent emptyState "run1" 3).1,
   (c6_approve_stage_idempotent emptyState "run1" 3).2 (by decide) (by decide)⟩

/-- A concrete store with one draft and one rejected exploitation tree. -/
def draftTreeState : StorageState :=
  { stage_log := [],
    trees := [{ tree_id := "t1", review_status := ReviewStatus.draft },
              { tree_id := "t2", review_status := ReviewStatus.rejected }] }

/-- C9: `approve_stage` at stage 5 rewrites every `draft` exploitation tree to
`approved` — across all policies and runs, with no condition on the current
stage status; for any other stage the trees are untouched; and the stage-log
effect is a per-row map that fixes every row not belonging to (run, stage). -/
theorem c9_approve_stage_frame (st : StorageState) (run_id : String) (stage : Nat) :
    (approve_stage st run_id 5).trees = st.trees.map approveTree ∧
    (∀ t, t.review_status = ReviewStatus.draft →
      approveTree t = { t with review_status := ReviewStatus.approved }) ∧
    (stage ≠ 5 → (approve_stage st run_id stage).trees = st.trees) ∧
    (approve_stage st run_id stage).stage_log = st.stage_log.map (approveRow run_id stage) ∧
    (∀ r, rowMatches run_id stage r = false → approveRow run_id stage r = r) := by
  refine ⟨by simp [approve_stage], ?_, ?_, rfl, ?_⟩
  · intro t ht
    simp [approveTree, ht]
  · intro h5
    have : (stage == 5) = false := by simp [h5]
    simp [approve_stage, this]
  · intro r hr
    simp [approveRow, hr]

/-- Witness for `c9_approve_stage_frame` at a concrete state. -/
theorem c9_approve_stage_frame_witness :
    (approve_stage draftTreeState "runX" 5).trees = draftTreeState.trees.map approveTree ∧
      (approve_stage draftTreeState "runX" 3).trees = draftTreeState.trees :=
  ⟨(c9_approve_stage_frame draftTreeState "runX" 3).1,
   (c9_approve_stage_frame draftTreeState "runX" 3).2.2.1 (by decide)⟩

/-! ## Gate registration (stage_runner.py handler, gate mode; claim C5) -/

/-- The gate branch of `stage_runner.handler`: `log_stage_start`, then
`log_stage_pending_review`, then `store_task_token`. -/
def handler_gate_mode (st : StorageState) (run_id : String) (stage : Nat)
    (task_token : String) : StorageState :=
  store_task_token
    (log_stage_pending_review (log_stage_start st run_id stage) run_id stage)
    run_id stage task_token

/-- `updateLast` rewrites the final element when it satisfies the predicate. -/
theorem updateLast_concat (p : α → Bool) (f : α → α) (l : List α) (x : α)
    (hx : p x = true) : updateLast p f (l ++ [x]) = l ++ [f x] := by
  induction l with
  | nil => simp [updateLast, hx]
  | cons a l ih =>
    have hany : (l ++ [x]).any p = true := by simp [hx]
    simp [updateLast, hany, ih]

/-- The stage-log contents after registering a gate: the prior rows (with any
`running` row of (run, stage) moved to `pending_review`), then the fresh row,
now `pending_review` and holding the token. -/
theorem handler_gate_mode_stage_log (st : StorageState) (run_id : String) (stage : Nat)
    (task_token : String) :
    (handler_gate_mode st run_id stage task_token).stage_log =
      st.stage_log.map (fun r =>
        if rowMatches run_id stage r && r.status == Status.running
        then { r with status := Status.pending_review } else r) ++
      [{ run_id := run_id, stage := stage, status := Status.pending_review,
         task_token := some task_token }] := by
  unfold handler_gate_mode store_task_token log_stage_pending_review log_stage_start
  simp [List.map_append, rowMatches, updateLast_concat]

/-- C5: after `registerGate` (start; markAwaitingApproval; persist token) the
current status of (run, stage) is `pending_review`, and after `approve_stage`
the stored token is returned by `get_task_token` exactly as registered. -/
theorem c5_gate_token_roundtrip (st : StorageState) (run_id : String) (stage : Nat)
    (task_token : String) :
    get_stage_status (handler_gate_mode st run_id stage task_token) run_id stage =
      some Status.pending_review ∧
    get_task_token (approve_stage (handler_gate_mode st run_id stage task_token) run_id stage)
      run_id stage = some task_token := by
  constructor
  · unfold get_stage_status
    rw [handler_gate_mode_stage_log]
    simp [List.filter_append, rowMatches, List.getLast?_concat]
  · unfold get_task_token approve_stage
    rw [handler_gate_mode_stage_log]
    simp [List.map_append, List.filter_append, rowMatches, approveRow,
      List.getLast?_concat]

/-! ## Orchestrator (orchestrator.py `_run_stage`; claim C7) -/

/-- The status strings stored in `stage_log.status`. -/
def statusText : Status → String
  | Status.running => "running"
  | Status.completed => "completed"
  | Status.failed => "failed"
  | Status.pending_review => "pending_review"
  | Status.approved => "approved"

/-- Python string interpolation of an optional status (`None` when absent). -/
def statusOptText : Option Status → String
  | none => "None"
  | some s => statusText s

/-- The RuntimeError message raised by `_run_stage` when the prerequisite
stage is not `completed` or `approved`: it names the blocking stage and its
actual status. -/
def prereq_error_message (prev_stage : Nat) (prev_status : Option Status)
    (stage : Nat) : String :=
  "Stage " ++ toString prev_stage ++ " status is '" ++ statusOptText prev_status ++
    "'. It must be 'completed' or 'approved' before running stage " ++
    toString stage ++ "."

/-- `orchestrator._run_stage`: for `stage > 1` read the previous stage's
current status; unless it is `completed` or `approved`, raise; otherwise run
the stage's business logic. -/
def run_stage (st : StorageState) (run_id : String) (stage : Nat)
    (stageLogic : StorageState → StorageState) : Except String StorageState :=
  if 1 < stage then
    let prev := get_stage_status st run_id (stage - 1)
    if prev = some Status.completed ∨ prev = some Status.approved
    then Except.ok (stageLogic st)
    else Except.error (prereq_error_message (stage - 1) prev stage)
  else Except.ok (stageLogic st)

/-- C7: when the previous stage's status is neither `completed` nor `approved`
(including `None`), `_run_stage` raises the error naming stage − 1 and its
actual status — for every business-logic function, which is therefore never
invoked. -/
theorem c7_prerequisite_blocks (st : StorageState) (run_id : String) (stage : Nat)
    (stageLogic : StorageState → StorageState)
    (hs : 1 < stage)
    (hc : get_stage_status st run_id (stage - 1) ≠ some Status.completed)
    (ha : get_stage_status st run_id (stage - 1) ≠ some Status.approved) :
    run_stage st run_id stage stageLogic =
      Except.error
        (prereq_error_message (stage - 1) (get_stage_status st run_id (stage - 1)) stage) := by
  unfold run_stage
  rw [if_pos hs, if_neg]
  rintro (h | h)
  · exact hc h
  · exact ha h

/-- The end-to-end scenario state: stage 2 gated and awaiting approval. -/
def awaitingStage2State : StorageState :=
  log_stage_pending_review (log_stage_start emptyState "run1" 2) "run1" 2

/-- Witness for `c7_prerequisite_blocks`: running stage 3 while stage 2 is
`pending_review` fails with the message naming stage 2. -/
theorem c7_prerequisite_blocks_witness :
    run_stage awaitingStage2State "run1" 3 id =
      Except.error (prereq_error_message 2 (some Status.pending_review) 3) :=
  c7_prerequisite_blocks awaitingStage2State "run1" 3 id (by decide) (by decide) (by decide)

/-! ## Stage-mode handler (stage_runner.py; claim C8) -/

/-- The stage branch of `stage_runner.handler`: run the stage logic; on an
uncaught exception (modelled as the logic returning its partial state and the
error text) call `log_stage_failed` and re-raise the same exception. -/
def handler_stage_mode (st : StorageState) (run_id : String) (stage : Nat)
    (stageLogic : StorageState → StorageState × Option String) :
    StorageState × Option String :=
  match stageLogic st with
  | (st', none) => (st', none)
  | (st', some e) => (log_stage_failed st' run_id stage e, some e)

/-- C8: an exception from the stage's business logic is recorded by
`log_stage_failed` with the error text, then re-raised unchanged; afterwards
no row of (run, stage) is left `running` (every running attempt is now
`failed` carrying the error text), so the current status cannot be `running`. -/
theorem c8_failure_recorded_before_reraise (st st' : StorageState) (run_id : String)
    (stage : Nat) (stageLogic : StorageState → StorageState × Option String) (e : String)
    (hrun : stageLogic st = (st', some e)) :
    handler_stage_mode st run_id stage stageLogic =
      (log_stage_failed st' run_id stage e, some e) ∧
    get_stage_status (log_stage_failed st' run_id stage e) run_id stage ≠
      some Status.running ∧
    (∀ r ∈ st'.stage_log, (rowMatches run_id stage r && r.status == Status.running) = true →
      { r with status := Status.failed, error_message := some e } ∈
        (log_stage_failed st' run_id stage e).stage_log) := by
  refine ⟨by simp [handler_stage_mode, hrun], ?_, ?_⟩
  · rw [get_stage_status_log_stage_failed]
    rcases get_stage_status st' run_id stage with _ | s
    · simp
    · by_cases hsr : s = Status.running
      · simp [hsr]
      · simp [hsr]
  · intro r hr hc
    have hmem := List.mem_map_of_mem
      (fun r => if rowMatches run_id stage r && r.status == Status.running
        then { r with status := Status.failed, error_message := some e } else r) hr
    simpa [log_stage_failed, hc] using hmem

/-- The concrete failing stage logic used by the C8 witness: it has logged a
stage start when the unhandled exception occurs. -/
def failingStageLogic : StorageState → StorageState × Option String :=
  fun st => (log_stage_start st "run1" 3, some "boom")

/-- Witness for `c8_failure_recorded_before_reraise` at a concrete failing run. -/
theorem c8_failure_recorded_before_reraise_witness :
    handler_stage_mode emptyState "run1" 3 failingStageLogic =
      (log_stage_failed (log_stage_start emptyState "run1" 3) "run1" 3 "boom", some "boom") ∧
    get_stage_status (log_stage_failed (log_stage_start emptyState "run1" 3) "run1" 3 "boom")
      "run1" 3 ≠ some Status.running :=
  ⟨(c8_failure_recorded_before_reraise emptyState (log_stage_start emptyState "run1" 3)
      "run1" 3 failingStageLogic "boom" rfl).1,
   (c8_failure_recorded_before_reraise emptyState (log_stage_start emptyState "run1" 3)
      "run1" 3 failingStageLogic "boom" rfl).2.1⟩

/-! ## Schema migrator (storage.py `_migrate`; claim C3) -/

/-- `SCHEMA_VERSION` of storage.py. -/
def SCHEMA_VERSION : Nat := 6

/-- The `MIGRATIONS` list of storage.py: each migration's version paired with
the number of SQL statements it executes (the statements act on tables outside
the modelled state, so a step is observed by its statement count: v1 has 31
statements, v2 7, v3 24, v4 1, v5 6, v6 14). -/
def MIGRATIONS : List (Nat × Nat) := [(1, 31), (2, 7), (3, 24), (4, 1), (5, 6), (6, 14)]

/-- `_migrate` on the lock-acquiring path: create the version row if absent
(version 0), return at once when the current version is at or above the
target, otherwise execute every migration whose version exceeds the current
one, in order, and set the stored version to the target. Returns the stored
version paired with the number of migration statements executed. -/
def migrate (migrations : List (Nat × Nat)) (target : Nat) (db : Option Nat) :
    Option Nat × Nat :=
  let current := db.getD 0
  if target ≤ current then (some current, 0)
  else
    (some target,
     migrations.foldl (fun acc m => if m.1 ≤ current then acc else acc + m.2) 0)

/-- A second `_migrate` against the store a first one produced executes zero
statements and leaves the stored version unchanged. -/
theorem migrate_second_noop (migrations : List (Nat × Nat)) (target : Nat)
    (db : Option Nat) :
    migrate migrations target ((migrate migrations target db).1) =
      ((migrate migrations target db).1, 0) := by
  unfold migrate
  by_cases h : target ≤ db.getD 0
  · simp [h]
  · simp [h]

/-- C3: running the migrator twice in sequence applies every step exactly once
in total — the second call executes no migration statements and returns the
same stored version, and from a fresh store the first call executes each of
the 83 statements of the six migrations once. -/
theorem c3_migrator_idempotent (db : Option Nat) :
    migrate MIGRATIONS SCHEMA_VERSION ((migrate MIGRATIONS SCHEMA_VERSION db).1) =
      ((migrate MIGRATIONS SCHEMA_VERSION db).1, 0) ∧
    (migrate MIGRATIONS SCHEMA_VERSION none).2 = 31 + 7 + 24 + 1 + 6 + 14 :=
  ⟨migrate_second_noop MIGRATIONS SCHEMA_VERSION db, by decide⟩

/-! ## Bounded-concurrency dispatcher (parallel.py `run_parallel_llm`; claim C4) -/

/-- Handling of one completed future in the `as_completed` loop: a successful
`invoke_fn` feeds `on_result` and adds its count to the total; a raising one
appends the job's label to the failed list. -/
def dispatchStep {P R C : Type} (invoke_fn : P → Except String R)
    (on_result : R → C → Nat) (acc : Nat × List String) (job : String × P × C) :
    Nat × List String :=
  match invoke_fn job.2.1 with
  | Except.ok r => (acc.1 + on_result r job.2.2, acc.2)
  | Except.error _ => (acc.1, acc.2 ++ [job.1])

/-- `run_parallel_llm` observed at its returned value: the jobs are handled in
completion order (`as_completed`), which may be any permutation of submission
order; `max_workers` affects scheduling only, not this fold. -/
def run_parallel_llm {P R C : Type} (invoke_fn : P → Except String R)
    (on_result : R → C → Nat) (completed : List (String × P × C)) :
    Nat × List String :=
  completed.foldl (dispatchStep invoke_fn on_result) (0, [])

/-- The `on_result` counts of the jobs whose `invoke_fn` succeeds. -/
def successCounts {P R C : Type} (invoke_fn : P → Except String R)
    (on_result : R → C → Nat) (jobs : List (String × P × C)) : List Nat :=
  jobs.filterMap (fun job =>
    match invoke_fn job.2.1 with
    | Except.ok r => some (on_result r job.2.2)
    | Except.error _ => none)

/-- The labels of the jobs whose `invoke_fn` raises. -/
def failedLabels {P R C : Type} (invoke_fn : P → Except String R)
    (jobs : List (String × P × C)) : List String :=
  jobs.filterMap (fun job =>
    match invoke_fn job.2.1 with
    | Except.ok _ => none
    | Except.error _ => some job.1)

/-- Whether a job's `invoke_fn` raises. -/
def invokeFails {P R : Type} (invoke_fn : P → Except String R) (p : P) : Bool :=
  match invoke_fn p with
  | Except.ok _ => false
  | Except.error _ => true

/-- The dispatch fold from any accumulator. -/
theorem dispatch_foldl {P R C : Type} (invoke_fn : P → Except String R)
    (on_result : R → C → Nat) (completed : List (String × P × C)) :
    ∀ t0 f0, completed.foldl (dispatchStep invoke_fn on_result) (t0, f0) =
      (t0 + (successCounts invoke_fn on_result completed).sum,
       f0 ++ failedLabels invoke_fn completed) := by
  induction completed with
  | nil => intro t0 f0; simp [successCounts, failedLabels]
  | cons j l ih =>
    intro t0 f0
    rcases hj : invoke_fn j.2.1 with e | r
    · simp [List.foldl_cons, dispatchStep, hj, successCounts, failedLabels,
        List.filterMap_cons, ih]
    · simp [List.foldl_cons, dispatchStep, hj, successCounts, failedLabels,
        List.filterMap_cons, ih, Nat.add_assoc]

/-- `run_parallel_llm` returns the sum of the successful jobs' counts and the
failed jobs' labels in completion order. -/
theorem run_parallel_llm_spec {P R C : Type} (invoke_fn : P → Except String R)
    (on_result : R → C → Nat) (completed : List (String × P × C)) :
    run_parallel_llm invoke_fn on_result completed =
      ((successCounts invoke_fn on_result completed).sum,
       failedLabels invoke_fn completed) := by
  unfold run_parallel_llm
  rw [dispatch_foldl]
  simp

/-- The failed-label list has one entry per failing job. -/
theorem failedLabels_length {P R C : Type} (invoke_fn : P → Except String R)
    (jobs : List (String × P × C)) :
    (failedLabels invoke_fn jobs).length =
      jobs.countP (fun job => invokeFails invoke_fn job.2.1) := by
  induction jobs with
  | nil => rfl
  | cons j l ih =>
    rcases hj : invoke_fn j.2.1 with e | r
    · simp [failedLabels, List.filterMap_cons, hj, invokeFails, List.countP_cons]
      simpa [failedLabels, invokeFails] using ih
    · simp [failedLabels, List.filterMap_cons, hj, invokeFails, List.countP_cons]
      simpa [failedLabels, invokeFails] using ih

/-- C4: for any completion order (a permutation of the submitted jobs), the
returned total is the sum of the successful jobs' `on_result` counts, the
returned failed labels are exactly the failing jobs' labels (as a
permutation), and their number equals the number of failing jobs — failures
never prevent other jobs from contributing. -/
theorem c4_dispatcher_partial_failure {P R C : Type} (invoke_fn : P → Except String R)
    (on_result : R → C → Nat) (jobs completed : List (String × P × C))
    (hperm : completed.Perm jobs) :
    (run_parallel_llm invoke_fn on_result completed).1 =
      (successCounts invoke_fn on_result jobs).sum ∧
    (run_parallel_llm invoke_fn on_result completed).2.Perm (failedLabels invoke_fn jobs) ∧
    (run_parallel_llm invoke_fn on_result completed).2.length =
      jobs.countP (fun job => invokeFails invoke_fn job.2.1) := by
  rw [run_parallel_llm_spec]
  refine ⟨?_, ?_, ?_⟩
  · exact List.Perm.sum_eq (List.Perm.filterMap _ hperm)
  · exact List.Perm.filterMap _ hperm
  · rw [show (failedLabels invoke_fn completed).length =
        (failedLabels invoke_fn jobs).length from
      List.Perm.length_eq (List.Perm.filterMap _ hperm)]
    exact failedLabels_length invoke_fn jobs

/-- Scenario inputs: jobs a and c succeed, job b raises; submitted as a, b, c
but completing as c, a, b. -/
def c4Invoke : Nat → Except String Nat :=
  fun p => if p = 1 then Except.error "invoke raised" else Except.ok p

def c4OnResult : Nat → Nat → Nat := fun _ _ => 1

def c4Jobs : List (String × Nat × Nat) := [("a", 0, 0), ("b", 1, 0), ("c", 2, 0)]

def c4Completed : List (String × Nat × Nat) := [("c", 2, 0), ("a", 0, 0), ("b", 1, 0)]

/-- Witness for `c4_dispatcher_partial_failure` at the concrete scenario. -/
theorem c4_dispatcher_partial_failure_witness :
    (run_parallel_llm c4Invoke c4OnResult c4Completed).1 =
      (successCounts c4Invoke c4OnResult c4Jobs).sum ∧
    (run_parallel_llm c4Invoke c4OnResult c4Completed).2.Perm
      (failedLabels c4Invoke c4Jobs) ∧
    (run_parallel_llm c4Invoke c4OnResult c4Completed).2.length =
      c4Jobs.countP (fun job => invokeFails c4Invoke job.2.1) :=
  c4_dispatcher_partial_failure c4Invoke c4OnResult c4Jobs c4Completed (by decide)

/-- End-to-end scenario 4 of the spec, concretely: totalCount 2, failed ["b"]. -/
theorem dispatcher_scenario_four :
    run_parallel_llm c4Invoke c4OnResult c4Completed = (2, ["b"]) := by
  decide

/-! ## Stage 3 delta detection (stages/stage3_scoring.py; claim C2) -/

/-- A `cases` row (the fields the stage-3 delta loop reads). -/
structure CaseRec where
  case_id : String
  enabling_condition : String
deriving DecidableEq

/-- The delta-detection loop of `stage3_scoring.run`: for each case compute
`h = compute_hash(case["enabling_condition"], tax_fp)`; when the stored hash
for its `case_id` equals `h`, skip the case, otherwise keep `(case, h)` for
scoring. `stored` is the `get_processing_hashes(3)` map as an association
list. -/
def stage3_cases_to_score (stored : List (String × String)) (tax_fp : String) :
    List CaseRec → List (CaseRec × String)
  | [] => []
  | c :: rest =>
    if stored.lookup c.case_id = some (compute_hash [c.enabling_condition, tax_fp])
    then stage3_cases_to_score stored tax_fp rest
    else (c, compute_hash [c.enabling_condition, tax_fp]) ::
      stage3_cases_to_score stored tax_fp rest

/-- The cases for which stage 3 calls `_score_case` — one `client.invoke_json`
call per element. -/
def stage3_scored_cases (stored : List (String × String)) (tax_fp : String)
    (cases : List CaseRec) : List CaseRec :=
  (stage3_cases_to_score stored tax_fp cases).map Prod.fst

/-- C2: a case whose stored processing-ledger digest equals its currently
computed digest (`compute_hash` of its enabling condition and the taxonomy
fingerprint) is never among the scored cases, so re-running stage 3 performs
no external reasoning call for it. -/
theorem c2_unchanged_case_skipped (stored : List (String × String)) (tax_fp : String)
    (cases : List CaseRec) (c : CaseRec)
    (hstored : stored.lookup c.case_id =
      some (compute_hash [c.enabling_condition, tax_fp])) :
    c ∉ stage3_scored_cases stored tax_fp cases := by
  induction cases with
  | nil => simp [stage3_scored_cases, stage3_cases_to_score]
  | cons c0 rest ih =>
    unfold stage3_scored_cases stage3_cases_to_score
    by_cases hc : stored.lookup c0.case_id =
        some (compute_hash [c0.enabling_condition, tax_fp])
    · rw [if_pos hc]
      exact ih
    · rw [if_neg hc, List.map_cons]
      intro hmem
      rcases List.mem_cons.mp hmem with heq | htail
      · rw [heq] at hstored
        exact hc hstored
      · exact ih htail

/-- The C2 witness ledger: the one case of the run is recorded with exactly
its current digest. -/
def c2Stored : List (String × String) := [("case1", compute_hash ["cond1", "fp"])]

def c2Case : CaseRec := { case_id := "case1", enabling_condition := "cond1" }

/-- Witness for `c2_unchanged_case_skipped` at a concrete ledger and case. -/
theorem c2_unchanged_case_skipped_witness :
    c2Case ∉ stage3_scored_cases c2Stored "fp" [c2Case] :=
  c2_unchanged_case_skipped c2Stored "fp" [c2Case] c2Case rfl

/-! ## Taxonomy fingerprint (delta.py `taxonomy_fingerprint`; claim C10) -/

/-- C10, amended: the fingerprint depends only on the multiset of
`quality_id` values — it is invariant under any permutation of the taxonomy
list and under any change to fields other than `quality_id`. -/
theorem c10_fingerprint_invariance (l1 l2 : List Quality)
    (h : (l1.map Quality.quality_id).Perm (l2.map Quality.quality_id)) :
    taxonomy_fingerprint l1 = taxonomy_fingerprint l2 := by
  have hs : List.insertionSort pyLe (l1.map Quality.quality_id) =
      List.insertionSort pyLe (l2.map Quality.quality_id) :=
    List.eq_of_perm_of_sorted
      (((List.perm_insertionSort pyLe (l1.map Quality.quality_id)).trans h).trans
        (List.perm_insertionSort pyLe (l2.map Quality.quality_id)).symm)
      (List.sorted_insertionSort pyLe (l1.map Quality.quality_id))
      (List.sorted_insertionSort pyLe (l2.map Quality.quality_id))
  unfold taxonomy_fingerprint fingerprint_input
  rw [hs]

def qualityA : Quality :=
  { quality_id := "a", name := "A", definition := "def a", canonical_examples := "[]" }

def qualityAEdited : Quality :=
  { quality_id := "a", name := "A renamed", definition := "def a v2",
    canonical_examples := "[ex1]" }

def qualityB : Quality :=
  { quality_id := "b", name := "B", definition := "def b", canonical_examples := "[]" }

def qualityAB : Quality :=
  { quality_id := "a:b", name := "AB", definition := "def ab", canonical_examples := "[]" }

/-- Witness for `c10_fingerprint_invariance`: permuting the list and editing
non-id fields leaves the fingerprint unchanged. -/
theorem c10_fingerprint_invariance_witness :
    taxonomy_fingerprint [qualityA, qualityB] =
      taxonomy_fingerprint [qualityB, qualityAEdited] :=
  c10_fingerprint_invariance [qualityA, qualityB] [qualityB, qualityAEdited] (by decide)

/-- C10 as stated is false: the taxonomies over ids {"a", "b"} and {"a:b"}
have different id sets — "a" is an id of the first and not of the second — yet
the colon-joined id strings coincide ("a:b"), so the fingerprints are equal:
adding or removing a quality_id does not always change the fingerprint, and
the fingerprint is not a function of the id set alone on lists whose ids
contain the separator. -/
theorem c10_counterexample :
    taxonomy_fingerprint [qualityA, qualityB] = taxonomy_fingerprint [qualityAB] ∧
    [qualityA, qualityB].map Quality.quality_id ≠ [qualityAB].map Quality.quality_id ∧
    "a" ∈ [qualityA, qualityB].map Quality.quality_id ∧
    "a" ∉ [qualityAB].map Quality.quality_id := by
  refine ⟨?_, by decide, by decide, by decide⟩
  show (sha256hex (fingerprint_input [qualityA, qualityB])).take 12 =
    (sha256hex (fingerprint_input [qualityAB])).take 12
  rw [show fingerprint_input [qualityA, qualityB] = fingerprint_input [qualityAB]
    from by decide]

end SVAP
